import Mathlib

/-!
Shallow embedding of the SkillLedger scoring core
(`backend/utils/skillScoring.js`, `backend/models/User.js`,
`backend/models/Submission.js`, `backend/models/Endorsement.js`).

JavaScript numbers are modelled as rationals (`ℚ`); `Math.round` is the
JS rounding (half towards `+∞`, i.e. `⌊x + 1/2⌋`), `Math.min`/`Math.max`
are `min`/`max`.  Mongo collections are modelled as lists; `findById`
and `find` with a predicate become `List.find?`/`List.filter`.  A fixed
clock value `now` (milliseconds) replaces `Date.now()`.
-/

namespace SkillLedger

/-- JS `Math.round` on the nonnegative rationals that appear here:
rounds half up, `Math.round x = ⌊x + 1/2⌋`. -/
def jsRound (q : ℚ) : ℚ := ((⌊q + 1/2⌋ : ℤ) : ℚ)

/-- Milliseconds per day, the `1000 * 60 * 60 * 24` of the source. -/
def msPerDay : ℚ := 1000 * 60 * 60 * 24

/-- Source `LEVEL_VALUES[level] || 1` — ordinal value of an endorsement level,
unknown keys fall back to 1. -/
def levelValue (level : String) : ℚ :=
  if level = "beginner" then 1
  else if level = "intermediate" then 2
  else if level = "advanced" then 3
  else if level = "expert" then 4
  else 1

/-- Source `DIFFICULTY_MULTIPLIERS[difficulty] || 1` — unknown keys fall back to 1. -/
def difficultyMultiplier (difficulty : String) : ℚ :=
  if difficulty = "easy" then 1
  else if difficulty = "medium" then 3/2
  else if difficulty = "hard" then 2
  else if difficulty = "expert" then 3
  else 1

/-- The fields of a `Challenge` document the scoring core reads
(`skill`, `difficulty`), plus `passingScore`, which the submission
pre-save hook is documented to want but never reads. -/
structure Challenge where
  skill : Nat
  difficulty : String
  passingScore : ℚ
  deriving DecidableEq

/-- A `Submission` document with its `challenge` reference populated
(the field is `required` in the schema, hence total here). -/
structure Submission where
  user : Nat
  challenge : Challenge
  score : ℚ
  isPassed : Bool
  isVerified : Bool
  submittedAt : ℚ
  deriving DecidableEq

/-- An `Endorsement` document; `endorser`, `recipient`, `skill` are ids. -/
structure Endorsement where
  endorser : Nat
  recipient : Nat
  skill : Nat
  level : String
  weight : ℚ
  isValid : Bool
  deriving DecidableEq

/-- One entry of `user.skills` in the `User` schema. -/
structure UserSkill where
  skill : Nat
  proficiencyLevel : ℚ
  yearsOfExperience : ℚ
  isVerified : Bool
  credibilityScore : ℚ
  lastUpdated : ℚ
  deriving DecidableEq

/-- A `User` document: its id, its `skills` array and its overall
`credibilityScore`. -/
structure User where
  id : Nat
  skills : List UserSkill
  credibilityScore : ℚ
  deriving DecidableEq

/-- The document store: the three collections the scoring core touches. -/
structure DB where
  users : List User
  submissions : List Submission
  endorsements : List Endorsement
  deriving DecidableEq

/-- Source `User.findById`. -/
def getUser (db : DB) (userId : Nat) : Option User :=
  db.users.find? (fun u => u.id == userId)

/-- Source `user.skills.find(s => s.skill.toString() === skillId.toString())`. -/
def findUserSkill (u : User) (skillId : Nat) : Option UserSkill :=
  u.skills.find? (fun s => s.skill == skillId)

/-- Source `endorsement.endorser.credibilityScore || 0` after
`.populate('endorser')`: the endorsing user's current overall score,
0 when the referenced user is absent. -/
def endorserCredibility (db : DB) (e : Endorsement) : ℚ :=
  match getUser db e.endorser with
  | some u => u.credibilityScore
  | none => 0

/-- The per-submission loop body of `calculateChallengeScore`:
`score = (40 + (submission.score/100)*30) * difficultyMultiplier
       + recencyFactor * 20`
with `recencyFactor = max(0, 1 - daysSinceSubmission/365)`. -/
def submissionComponentScore (now : ℚ) (s : Submission) : ℚ :=
  let m := difficultyMultiplier s.challenge.difficulty
  let daysSinceSubmission := (now - s.submittedAt) / msPerDay
  let recencyFactor := max 0 (1 - daysSinceSubmission / 365)
  (40 + s.score / 100 * 30) * m + recencyFactor * 20

/-- Source `Submission.find({user, isVerified: true, isPassed: true})` — note the
query does not filter by skill; that happens inside the loop. -/
def passedVerifiedSubmissions (db : DB) (userId : Nat) : List Submission :=
  db.submissions.filter (fun s => s.user == userId && s.isVerified && s.isPassed)

/-- Source `calculateChallengeScore(userId, skillId)`: scores the user's
verified, passed submissions; submissions for other skills are skipped
inside the loop (`continue`). -/
def calculateChallengeScore (db : DB) (now : ℚ) (userId skillId : Nat) : ℚ :=
  let submissions := passedVerifiedSubmissions db userId
  if submissions.length = 0 then 0
  else
    let relevant := submissions.filter (fun s => s.challenge.skill == skillId)
    let totalScore := (relevant.map (submissionComponentScore now)).sum
    let maxPossibleScore :=
      (relevant.map (fun s => 100 * difficultyMultiplier s.challenge.difficulty)).sum
    if 0 < maxPossibleScore then min (totalScore / maxPossibleScore * 100) 100 else 0

/-- The valid endorsements of a (recipient, skill) pair:
`Endorsement.find({recipient, skill, isValid: true})`. -/
def validEndorsements (db : DB) (userId skillId : Nat) : List Endorsement :=
  db.endorsements.filter
    (fun e => e.recipient == userId && e.skill == skillId && e.isValid)

/-- Source `calculateEndorsementScore(userId, skillId)`. -/
def calculateEndorsementScore (db : DB) (userId skillId : Nat) : ℚ :=
  let endorsements := validEndorsements db userId skillId
  if endorsements.length = 0 then 0
  else
    let totalLevelScore := (endorsements.map (fun e => levelValue e.level)).sum
    let totalWeightScore :=
      (endorsements.map (fun e => endorserCredibility db e * e.weight)).sum
    let maxLevelScore : ℚ := (endorsements.length : ℚ) * 4
    let maxWeightScore : ℚ := (endorsements.length : ℚ) * 100
    let normalizedLevel := totalLevelScore / maxLevelScore * 50
    let normalizedWeight := totalWeightScore / maxWeightScore * 30
    let countBonus := min ((endorsements.length : ℚ) * 2) 20
    min (normalizedLevel + normalizedWeight + countBonus) 100

/-- Source `calculateProficiencyScore(userId, skillId)`. -/
def calculateProficiencyScore (db : DB) (userId skillId : Nat) : ℚ :=
  match getUser db userId with
  | none => 0
  | some user =>
    match findUserSkill user skillId with
    | none => 0
    | some userSkill =>
      let score := 25 + userSkill.proficiencyLevel / 10 * 50
      let experienceBonus := min userSkill.yearsOfExperience 10 / 10 * 25
      min (score + experienceBonus) 100

/-- The decay formula of `calculateTimeDecay` as a function of
`daysSinceUpdate`: 1 before 90 days, then `1 - (days-90)/(365*2)`
clamped by `max(0.5, min(decay, 1))`. -/
def decayOfDays (daysSinceUpdate : ℚ) : ℚ :=
  if daysSinceUpdate < 90 then 1
  else max (1/2) (min (1 - (daysSinceUpdate - 90) / (365 * 2)) 1)

/-- Source `calculateTimeDecay(userId, skillId)`: 1 when the user or the skill
record is missing, otherwise the clamped linear decay. -/
def calculateTimeDecay (db : DB) (now : ℚ) (userId skillId : Nat) : ℚ :=
  match getUser db userId with
  | none => 1
  | some user =>
    match findUserSkill user skillId with
    | none => 1
    | some userSkill => decayOfDays ((now - userSkill.lastUpdated) / msPerDay)

/-- Result of `calculateSkillCredibility`: total plus breakdown. -/
structure ScoreResult where
  totalScore : ℚ
  challengeScore : ℚ
  endorsementScore : ℚ
  proficiencyScore : ℚ
  decayFactor : ℚ
  isVerified : Bool
  deriving DecidableEq

/-- Source `calculateSkillCredibility(userId, skillId)` — the happy path of the
aggregator; the `catch` branch (zero result on an internal exception)
has no counterpart because the embedding is total. -/
def calculateSkillCredibility (db : DB) (now : ℚ) (userId skillId : Nat) :
    ScoreResult :=
  let challengeScore := calculateChallengeScore db now userId skillId
  let endorsementScore := calculateEndorsementScore db userId skillId
  let proficiencyScore := calculateProficiencyScore db userId skillId
  let decayFactor := calculateTimeDecay db now userId skillId
  let totalScore := jsRound
    ((challengeScore * (2/5) + endorsementScore * (7/20) +
      proficiencyScore * (1/4)) * decayFactor)
  { totalScore := min totalScore 100
    challengeScore := challengeScore
    endorsementScore := endorsementScore
    proficiencyScore := proficiencyScore
    decayFactor := decayFactor
    isVerified := decide (30 ≤ challengeScore) || decide (40 ≤ endorsementScore) }

/-- The weight `userSkill.proficiencyLevel * userSkill.yearsOfExperience + 1`
used by `User.updateCredibilityScore` (note: no parentheses around
`yearsOfExperience + 1` in the source). -/
def updateCredibilityScoreWeight (s : UserSkill) : ℚ :=
  s.proficiencyLevel * s.yearsOfExperience + 1

/-- Source `userSchema.methods.updateCredibilityScore` (models/User.js): sets the
overall score to 0 when the user owns no skills, else to the rounded
weighted average of the per-skill credibility scores. -/
def updateCredibilityScore (u : User) : User :=
  if u.skills.length = 0 then { u with credibilityScore := 0 }
  else
    let totalWeight := (u.skills.map updateCredibilityScoreWeight).sum
    let weightedSum :=
      (u.skills.map (fun s => s.credibilityScore * updateCredibilityScoreWeight s)).sum
    { u with credibilityScore := jsRound (weightedSum / totalWeight) }

/-- The per-skill mutation in the `updateAllSkillScores` loop: overwrite
`credibilityScore`, `isVerified` and reset `lastUpdated` to now.  All
reads inside `calculateSkillCredibility` see the pre-save store `db`. -/
def recomputedSkill (db : DB) (now : ℚ) (userId : Nat) (us : UserSkill) :
    UserSkill :=
  let result := calculateSkillCredibility db now userId us.skill
  { us with
    credibilityScore := result.totalScore
    isVerified := result.isVerified
    lastUpdated := now }

/-- Source `updateAllSkillScores(userId)`: recompute every owned skill from the
current store, then recompute the overall score via
`user.updateCredibilityScore()`, then persist the user. -/
def updateAllSkillScores (db : DB) (now : ℚ) (userId : Nat) : DB :=
  match getUser db userId with
  | none => db
  | some user =>
    let updated := updateCredibilityScore
      { user with skills := user.skills.map (recomputedSkill db now userId) }
    { db with users := db.users.map (fun v => if v.id == userId then updated else v) }

/-- The weight `userSkill.proficiencyLevel * (userSkill.yearsOfExperience + 1)`
used by the exposed `calculateOverallCredibility`. -/
def overallCredibilityWeight (s : UserSkill) : ℚ :=
  s.proficiencyLevel * (s.yearsOfExperience + 1)

/-- Source `calculateOverallCredibility(userId)`: 0 for a missing user or an
empty skill list, else the rounded weighted average with weight
`proficiencyLevel * (yearsOfExperience + 1)`. -/
def calculateOverallCredibility (db : DB) (userId : Nat) : ℚ :=
  match getUser db userId with
  | none => 0
  | some user =>
    if user.skills.length = 0 then 0
    else
      let totalWeight := (user.skills.map overallCredibilityWeight).sum
      let weightedSum :=
        (user.skills.map (fun s => s.credibilityScore * overallCredibilityWeight s)).sum
      jsRound (weightedSum / totalWeight)

/-- The `submissionSchema.pre('save')` hook (models/Submission.js): when the
`score` path is modified (and the required `challenge` reference is set,
which it always is on a schema-valid document), set
`isPassed := score >= 70` — a fixed threshold, independent of the
challenge's own `passingScore`. -/
def submissionPreSave (s : Submission) (scoreModified : Bool) : Submission :=
  if scoreModified then { s with isPassed := decide (70 ≤ s.score) } else s

/-- The schema-level input ranges of the claim: submission scores in
[0,100], endorsement weights in [0,1], user overall credibility in
[0,100], and per-skill `proficiencyLevel` in 1..10, nonnegative
`yearsOfExperience`, `credibilityScore` in [0,100]. -/
def ValidDB (db : DB) : Prop :=
  (∀ s ∈ db.submissions, 0 ≤ s.score ∧ s.score ≤ 100) ∧
  (∀ e ∈ db.endorsements, 0 ≤ e.weight ∧ e.weight ≤ 1) ∧
  (∀ u ∈ db.users, (0 ≤ u.credibilityScore ∧ u.credibilityScore ≤ 100) ∧
    ∀ s ∈ u.skills, 1 ≤ s.proficiencyLevel ∧ s.proficiencyLevel ≤ 10 ∧
      0 ≤ s.yearsOfExperience ∧ 0 ≤ s.credibilityScore ∧ s.credibilityScore ≤ 100)

/-- A store with no documents at all. -/
def emptyDb : DB := { users := [], submissions := [], endorsements := [] }

/-- A user owning no skills. -/
def soloUser : User := { id := 0, skills := [], credibilityScore := 0 }

/-- A store holding exactly one user who owns no skills. -/
def soloUserDb : DB := { users := [soloUser], submissions := [], endorsements := [] }

/-- A user with two skills whose two weight formulas diverge:
skill 1 has `proficiencyLevel = 10, yearsOfExperience = 0`
(weights `10*(0+1) = 10` vs `10*0+1 = 1`), skill 2 has
`proficiencyLevel = 1, yearsOfExperience = 10` (weights 11 vs 11). -/
def c2User : User :=
  { id := 0
    skills :=
      [ { skill := 1, proficiencyLevel := 10, yearsOfExperience := 0
          isVerified := false, credibilityScore := 0, lastUpdated := 0 }
      , { skill := 2, proficiencyLevel := 1, yearsOfExperience := 10
          isVerified := false, credibilityScore := 0, lastUpdated := 0 } ]
    credibilityScore := 0 }

/-- A store holding only `c2User`, with no submissions or endorsements. -/
def c2Db : DB := { users := [c2User], submissions := [], endorsements := [] }

/-- A user with fixed per-skill scores on which the two overall-score
weight formulas disagree. -/
def c8User : User :=
  { id := 0
    skills :=
      [ { skill := 1, proficiencyLevel := 10, yearsOfExperience := 0
          isVerified := false, credibilityScore := 100, lastUpdated := 0 }
      , { skill := 2, proficiencyLevel := 1, yearsOfExperience := 0
          isVerified := false, credibilityScore := 0, lastUpdated := 0 } ]
    credibilityScore := 0 }

/-- A store holding only `c8User`. -/
def c8Db : DB := { users := [c8User], submissions := [], endorsements := [] }

/-- A user all of whose skills have `proficiencyLevel = 1`. -/
def c8UnitUser : User :=
  { id := 0
    skills :=
      [ { skill := 1, proficiencyLevel := 1, yearsOfExperience := 5
          isVerified := false, credibilityScore := 60, lastUpdated := 0 } ]
    credibilityScore := 0 }

/-- A store holding only `c8UnitUser`. -/
def c8UnitDb : DB := { users := [c8UnitUser], submissions := [], endorsements := [] }

/-- A user whose single skill record is 400 days stale at clock
`c3Now`: the first recompute applies decay 42/73, then resets
`lastUpdated`, so the second recompute applies decay 1. -/
def c3User : User :=
  { id := 0
    skills :=
      [ { skill := 1, proficiencyLevel := 5, yearsOfExperience := 3
          isVerified := false, credibilityScore := 0, lastUpdated := 0 } ]
    credibilityScore := 0 }

/-- A store holding only `c3User`. -/
def c3Db : DB := { users := [c3User], submissions := [], endorsements := [] }

/-- A clock instant 400 days (in milliseconds) after `lastUpdated = 0`. -/
def c3Now : ℚ := 400 * 86400000

/-- An endorsing user with overall credibility 80. -/
def c7Endorser : User := { id := 5, skills := [], credibilityScore := 80 }

/-- An endorsement by `c7Endorser` of user 0 for skill 1. -/
def c7Endorsement : Endorsement :=
  { endorser := 5, recipient := 0, skill := 1
    level := "expert", weight := 9/10, isValid := true }

/-- A store holding only the endorsing user and no endorsements yet. -/
def c7Db : DB := { users := [c7Endorser], submissions := [], endorsements := [] }

/-- Scenario A of the spec: a single verified, passed submission of
medium difficulty with achieved score 90, submitted at the clock
instant (`daysSinceSubmission = 0`). -/
def scenarioASubmission : Submission :=
  { user := 0
    challenge := { skill := 1, difficulty := "medium", passingScore := 70 }
    score := 90
    isPassed := true
    isVerified := true
    submittedAt := 0 }

/-- A store holding only the Scenario A submission. -/
def scenarioADb : DB :=
  { users := [], submissions := [scenarioASubmission], endorsements := [] }

/-! ### Helper lemmas -/

lemma jsRound_nonneg {q : ℚ} (h : 0 ≤ q) : 0 ≤ jsRound q := by
  unfold jsRound
  have : (0 : ℤ) ≤ ⌊q + 1/2⌋ := Int.le_floor.mpr (by push_cast; linarith)
  exact_mod_cast this

lemma jsRound_le_100 {q : ℚ} (h : q ≤ 100) : jsRound q ≤ 100 := by
  unfold jsRound
  have : ⌊q + 1/2⌋ < (101 : ℤ) := Int.floor_lt.mpr (by push_cast; linarith)
  have h2 : ⌊q + 1/2⌋ ≤ (100 : ℤ) := by omega
  exact_mod_cast h2

lemma difficultyMultiplier_one_le (d : String) : 1 ≤ difficultyMultiplier d := by
  unfold difficultyMultiplier
  split_ifs <;> norm_num

lemma difficultyMultiplier_pos (d : String) : 0 < difficultyMultiplier d :=
  lt_of_lt_of_le one_pos (difficultyMultiplier_one_le d)

lemma levelValue_one_le (s : String) : 1 ≤ levelValue s := by
  unfold levelValue
  split_ifs <;> norm_num

lemma levelValue_le_four (s : String) : levelValue s ≤ 4 := by
  unfold levelValue
  split_ifs <;> norm_num

lemma sum_map_const {α : Type} (l : List α) (f : α → ℚ) (k : ℚ)
    (h : ∀ x ∈ l, f x = k) : (l.map f).sum = (l.length : ℚ) * k := by
  induction l with
  | nil => simp
  | cons a t ih =>
    rw [List.map_cons, List.sum_cons, h a (List.mem_cons_self a t),
      ih (fun x hx => h x (List.mem_cons_of_mem a hx)), List.length_cons]
    push_cast
    ring

/-- Closed form of `calculateEndorsementScore` when every valid
endorsement carries the same level, endorser credibility and weight. -/
lemma endorsementScore_uniform (db : DB) (userId skillId : Nat)
    (lv : String) (c w : ℚ)
    (hall : ∀ x ∈ validEndorsements db userId skillId,
      x.level = lv ∧ endorserCredibility db x = c ∧ x.weight = w)
    (hne : validEndorsements db userId skillId ≠ []) :
    calculateEndorsementScore db userId skillId =
      min (levelValue lv / 4 * 50 + c * w / 100 * 30 +
        min (((validEndorsements db userId skillId).length : ℚ) * 2) 20) 100 := by
  unfold calculateEndorsementScore
  have hlen : (validEndorsements db userId skillId).length ≠ 0 :=
    fun h => hne (List.length_eq_zero.mp h)
  have hlenq : ((validEndorsements db userId skillId).length : ℚ) ≠ 0 :=
    Nat.cast_ne_zero.mpr hlen
  rw [if_neg hlen]
  rw [sum_map_const _ _ (levelValue lv) (fun x hx => by rw [(hall x hx).1]),
    sum_map_const _ _ (c * w)
      (fun x hx => by rw [(hall x hx).2.1, (hall x hx).2.2])]
  simp only [mul_div_mul_left _ _ hlenq]

lemma updateCredibilityScore_id (v : User) : (updateCredibilityScore v).id = v.id := by
  unfold updateCredibilityScore
  split_ifs <;> rfl

lemma updateCredibilityScore_skills (v : User) :
    (updateCredibilityScore v).skills = v.skills := by
  unfold updateCredibilityScore
  split_ifs <;> rfl

lemma updateCredibilityScore_score (v : User) :
    (updateCredibilityScore v).credibilityScore =
      if v.skills.length = 0 then 0 else
        jsRound ((v.skills.map
            (fun s => s.credibilityScore * updateCredibilityScoreWeight s)).sum /
          (v.skills.map updateCredibilityScoreWeight).sum) := by
  unfold updateCredibilityScore
  split_ifs <;> rfl

lemma find?_map_update {l : List User} {userId : Nat} {u upd : User}
    (hupd : upd.id = userId)
    (h : l.find? (fun v => v.id == userId) = some u) :
    (l.map (fun v => if v.id == userId then upd else v)).find?
      (fun v => v.id == userId) = some upd := by
  induction l with
  | nil => simp at h
  | cons a t ih =>
    rw [List.map_cons]
    by_cases hb : (a.id == userId) = true
    · rw [if_pos hb, List.find?_cons_of_pos _ (by simp [hupd])]
    · rw [List.find?_cons_of_neg _ (by simp [hb])] at h
      rw [if_neg hb, List.find?_cons_of_neg _ (by simp [hb])]
      exact ih h

lemma find?_map_update_ne {l : List User} {userId other : Nat} {upd : User}
    (hupd : upd.id = userId) (hne : other ≠ userId) :
    (l.map (fun v => if v.id == userId then upd else v)).find?
      (fun v => v.id == other) = l.find? (fun v => v.id == other) := by
  induction l with
  | nil => rfl
  | cons a t ih =>
    rw [List.map_cons]
    by_cases hb : (a.id == userId) = true
    · have haid : a.id = userId := by simpa using hb
      have h1 : ¬ ((upd.id == other) = true) := by
        simp only [hupd, beq_iff_eq]
        exact fun h => hne h.symm
      have h2 : ¬ ((a.id == other) = true) := by
        simp only [haid, beq_iff_eq]
        exact fun h => hne h.symm
      rw [if_pos hb,
        @List.find?_cons_of_neg User (fun v => v.id == other) upd _ h1,
        @List.find?_cons_of_neg User (fun v => v.id == other) a _ h2, ih]
    · rw [if_neg hb]
      by_cases hc : (a.id == other) = true
      · rw [@List.find?_cons_of_pos User (fun v => v.id == other) a _ hc,
          @List.find?_cons_of_pos User (fun v => v.id == other) a _ hc]
      · rw [@List.find?_cons_of_neg User (fun v => v.id == other) a _ hc,
          @List.find?_cons_of_neg User (fun v => v.id == other) a _ hc, ih]

lemma decayOfDays_bounds (t : ℚ) : 1/2 ≤ decayOfDays t ∧ decayOfDays t ≤ 1 := by
  unfold decayOfDays
  split_ifs
  · exact ⟨by norm_num, le_refl 1⟩
  · exact ⟨le_max_left _ _, max_le (by norm_num) (min_le_right _ _)⟩

lemma timeDecay_bounds (db : DB) (now : ℚ) (userId skillId : Nat) :
    1/2 ≤ calculateTimeDecay db now userId skillId ∧
      calculateTimeDecay db now userId skillId ≤ 1 := by
  unfold calculateTimeDecay
  split
  · exact ⟨by norm_num, le_refl 1⟩
  · split
    · exact ⟨by norm_num, le_refl 1⟩
    · exact decayOfDays_bounds _

lemma submissionComponentScore_nonneg (now : ℚ) (s : Submission)
    (h : 0 ≤ s.score) : 0 ≤ submissionComponentScore now s := by
  unfold submissionComponentScore
  have hm := difficultyMultiplier_one_le s.challenge.difficulty
  have hr : (0 : ℚ) ≤ max 0 (1 - (now - s.submittedAt) / msPerDay / 365) :=
    le_max_left 0 _
  have hbase : (0 : ℚ) ≤ 40 + s.score / 100 * 30 := by linarith
  nlinarith

lemma challengeScore_nonneg (db : DB) (now : ℚ) (userId skillId : Nat)
    (h : ∀ s ∈ db.submissions, 0 ≤ s.score) :
    0 ≤ calculateChallengeScore db now userId skillId := by
  unfold calculateChallengeScore
  dsimp only
  split_ifs with h1 h2
  · exact le_refl 0
  · refine le_min ?_ (by norm_num)
    refine mul_nonneg (div_nonneg ?_ (le_of_lt h2)) (by norm_num)
    refine List.sum_nonneg ?_
    intro x hx
    rcases List.mem_map.mp hx with ⟨s, hs, rfl⟩
    have hs1 := List.mem_filter.mp hs
    have hs2 := List.mem_filter.mp hs1.1
    exact submissionComponentScore_nonneg now s (h s hs2.1)
  · exact le_refl 0

lemma challengeScore_le_100 (db : DB) (now : ℚ) (userId skillId : Nat) :
    calculateChallengeScore db now userId skillId ≤ 100 := by
  unfold calculateChallengeScore
  dsimp only
  split_ifs
  · norm_num
  · exact min_le_right _ _
  · norm_num

lemma endorserCredibility_bounds (db : DB) (e : Endorsement)
    (h : ∀ u ∈ db.users, 0 ≤ u.credibilityScore ∧ u.credibilityScore ≤ 100) :
    0 ≤ endorserCredibility db e ∧ endorserCredibility db e ≤ 100 := by
  unfold endorserCredibility
  cases hu : getUser db e.endorser with
  | none => exact ⟨le_refl 0, by norm_num⟩
  | some u => exact h u (List.mem_of_find?_eq_some hu)

lemma endorsementScore_nonneg (db : DB) (userId skillId : Nat)
    (hw : ∀ e ∈ db.endorsements, 0 ≤ e.weight)
    (hu : ∀ u ∈ db.users, 0 ≤ u.credibilityScore ∧ u.credibilityScore ≤ 100) :
    0 ≤ calculateEndorsementScore db userId skillId := by
  unfold calculateEndorsementScore
  dsimp only
  split_ifs with h1
  · exact le_refl 0
  · refine le_min ?_ (by norm_num)
    have hlev : (0 : ℚ) ≤
        (List.map (fun e => levelValue e.level)
          (validEndorsements db userId skillId)).sum := by
      refine List.sum_nonneg ?_
      intro x hx
      rcases List.mem_map.mp hx with ⟨e, _, rfl⟩
      linarith [levelValue_one_le e.level]
    have hwei : (0 : ℚ) ≤
        (List.map (fun e => endorserCredibility db e * e.weight)
          (validEndorsements db userId skillId)).sum := by
      refine List.sum_nonneg ?_
      intro x hx
      rcases List.mem_map.mp hx with ⟨e, he, rfl⟩
      have he2 := (List.mem_filter.mp he).1
      exact mul_nonneg (endorserCredibility_bounds db e hu).1 (hw e he2)
    have hn : (0 : ℚ) ≤ ((validEndorsements db userId skillId).length : ℚ) :=
      Nat.cast_nonneg _
    have hb : (0 : ℚ) ≤
        min (((validEndorsements db userId skillId).length : ℚ) * 2) 20 :=
      le_min (by linarith) (by norm_num)
    have h2 : (0 : ℚ) ≤
        (List.map (fun e => levelValue e.level)
            (validEndorsements db userId skillId)).sum /
          (((validEndorsements db userId skillId).length : ℚ) * 4) * 50 := by
      positivity
    have h3 : (0 : ℚ) ≤
        (List.map (fun e => endorserCredibility db e * e.weight)
            (validEndorsements db userId skillId)).sum /
          (((validEndorsements db userId skillId).length : ℚ) * 100) * 30 := by
      positivity
    linarith

lemma endorsementScore_le_100 (db : DB) (userId skillId : Nat) :
    calculateEndorsementScore db userId skillId ≤ 100 := by
  unfold calculateEndorsementScore
  dsimp only
  split_ifs
  · norm_num
  · exact min_le_right _ _

lemma proficiencyScore_nonneg (db : DB) (userId skillId : Nat)
    (h : ∀ u ∈ db.users, ∀ s ∈ u.skills,
      0 ≤ s.proficiencyLevel ∧ 0 ≤ s.yearsOfExperience) :
    0 ≤ calculateProficiencyScore db userId skillId := by
  unfold calculateProficiencyScore
  split
  · exact le_refl 0
  · rename_i u hu
    split
    · exact le_refl 0
    · rename_i us hs
      have hmem := h u (List.mem_of_find?_eq_some hu) us
        (List.mem_of_find?_eq_some hs)
      dsimp only
      refine le_min ?_ (by norm_num)
      have h1 : (0 : ℚ) ≤ us.proficiencyLevel / 10 * 50 :=
        mul_nonneg (div_nonneg hmem.1 (by norm_num)) (by norm_num)
      have h2 : (0 : ℚ) ≤ min us.yearsOfExperience 10 / 10 * 25 :=
        mul_nonneg (div_nonneg (le_min hmem.2 (by norm_num)) (by norm_num))
          (by norm_num)
      linarith

lemma proficiencyScore_le_100 (db : DB) (userId skillId : Nat) :
    calculateProficiencyScore db userId skillId ≤ 100 := by
  unfold calculateProficiencyScore
  split
  · norm_num
  · split
    · norm_num
    · exact min_le_right _ _

lemma totalScore_in_range (db : DB) (now : ℚ) (userId skillId : Nat)
    (h : ValidDB db) :
    0 ≤ (calculateSkillCredibility db now userId skillId).totalScore ∧
      (calculateSkillCredibility db now userId skillId).totalScore ≤ 100 := by
  obtain ⟨hsub, hend, huser⟩ := h
  have hch0 := challengeScore_nonneg db now userId skillId
    (fun s hs => (hsub s hs).1)
  have hch1 := challengeScore_le_100 db now userId skillId
  have hen0 := endorsementScore_nonneg db userId skillId
    (fun e he => (hend e he).1) (fun u hu => (huser u hu).1)
  have hen1 := endorsementScore_le_100 db userId skillId
  have hpr0 := proficiencyScore_nonneg db userId skillId
    (fun u hu s hs => ⟨by linarith [((huser u hu).2 s hs).1],
      ((huser u hu).2 s hs).2.2.1⟩)
  have hpr1 := proficiencyScore_le_100 db userId skillId
  have hd := timeDecay_bounds db now userId skillId
  unfold calculateSkillCredibility
  simp only
  set ch := calculateChallengeScore db now userId skillId
  set en := calculateEndorsementScore db userId skillId
  set pr := calculateProficiencyScore db userId skillId
  set d := calculateTimeDecay db now userId skillId
  have hin0 : (0 : ℚ) ≤ (ch * (2/5) + en * (7/20) + pr * (1/4)) * d := by
    have : (0 : ℚ) ≤ ch * (2/5) + en * (7/20) + pr * (1/4) := by linarith
    nlinarith [hd.1]
  have hin1 : (ch * (2/5) + en * (7/20) + pr * (1/4)) * d ≤ 100 := by
    have h1 : ch * (2/5) + en * (7/20) + pr * (1/4) ≤ 100 := by linarith
    have h2 : (0 : ℚ) ≤ ch * (2/5) + en * (7/20) + pr * (1/4) := by linarith
    nlinarith [hd.1, hd.2]
  exact ⟨le_min (jsRound_nonneg hin0) (by norm_num),
    min_le_of_left_le (jsRound_le_100 hin1)⟩

lemma weightedAverage_in_range (l : List UserSkill) (wf : UserSkill → ℚ)
    (hw : ∀ s ∈ l, 1 ≤ wf s)
    (hcs : ∀ s ∈ l, 0 ≤ s.credibilityScore ∧ s.credibilityScore ≤ 100)
    (hne : l ≠ []) :
    0 ≤ (l.map (fun s => s.credibilityScore * wf s)).sum / (l.map wf).sum ∧
      (l.map (fun s => s.credibilityScore * wf s)).sum / (l.map wf).sum ≤ 100 := by
  have hWpos : 0 < (l.map wf).sum := by
    refine List.sum_pos _ ?_ ?_
    · intro x hx
      rcases List.mem_map.mp hx with ⟨s, hs, rfl⟩
      linarith [hw s hs]
    · exact fun h => hne (List.map_eq_nil.mp h)
  have hS0 : 0 ≤ (l.map (fun s => s.credibilityScore * wf s)).sum := by
    refine List.sum_nonneg ?_
    intro x hx
    rcases List.mem_map.mp hx with ⟨s, hs, rfl⟩
    exact mul_nonneg (hcs s hs).1 (by linarith [hw s hs])
  have hS1 : (l.map (fun s => s.credibilityScore * wf s)).sum ≤
      100 * (l.map wf).sum := by
    rw [← List.sum_map_mul_left]
    refine List.sum_le_sum ?_
    intro s hs
    exact mul_le_mul_of_nonneg_right (hcs s hs).2 (by linarith [hw s hs])
  exact ⟨div_nonneg hS0 (le_of_lt hWpos), (div_le_iff hWpos).mpr hS1⟩

lemma updateCredibilityScore_in_range (u : User)
    (h : ∀ s ∈ u.skills, 1 ≤ s.proficiencyLevel ∧ 0 ≤ s.yearsOfExperience ∧
      0 ≤ s.credibilityScore ∧ s.credibilityScore ≤ 100) :
    0 ≤ (updateCredibilityScore u).credibilityScore ∧
      (updateCredibilityScore u).credibilityScore ≤ 100 := by
  rw [updateCredibilityScore_score]
  split_ifs with h0
  · exact ⟨le_refl 0, by norm_num⟩
  · have hne : u.skills ≠ [] := fun hx => h0 (by rw [hx]; rfl)
    have hb := weightedAverage_in_range u.skills updateCredibilityScoreWeight
      (fun s hs => by
        have := h s hs
        unfold updateCredibilityScoreWeight
        nlinarith [this.1, this.2.1])
      (fun s hs => ⟨(h s hs).2.2.1, (h s hs).2.2.2⟩) hne
    exact ⟨jsRound_nonneg hb.1, jsRound_le_100 hb.2⟩

lemma overall_in_range (db : DB) (userId : Nat) (h : ValidDB db) :
    0 ≤ calculateOverallCredibility db userId ∧
      calculateOverallCredibility db userId ≤ 100 := by
  obtain ⟨_, _, huser⟩ := h
  unfold calculateOverallCredibility
  cases hu : getUser db userId with
  | none => exact ⟨le_refl 0, by norm_num⟩
  | some u =>
    have hmem := huser u (List.mem_of_find?_eq_some hu)
    simp only
    split_ifs with h0
    · exact ⟨le_refl 0, by norm_num⟩
    · have hne : u.skills ≠ [] := fun hx => h0 (by rw [hx]; rfl)
      have hb := weightedAverage_in_range u.skills overallCredibilityWeight
        (fun s hs => by
          have := hmem.2 s hs
          unfold overallCredibilityWeight
          nlinarith [this.1, this.2.2.1])
        (fun s hs => ⟨(hmem.2 s hs).2.2.2.1, (hmem.2 s hs).2.2.2.2⟩) hne
      exact ⟨jsRound_nonneg hb.1, jsRound_le_100 hb.2⟩

lemma validDB_preserved (db : DB) (now : ℚ) (userId : Nat) (h : ValidDB db) :
    ValidDB (updateAllSkillScores db now userId) := by
  unfold updateAllSkillScores
  split
  · exact h
  · rename_i u hu
    obtain ⟨hsub, hend, huser⟩ := h
    have hmemu : u ∈ db.users := List.mem_of_find?_eq_some hu
    have hskills : ∀ t ∈ u.skills.map (recomputedSkill db now userId),
        1 ≤ t.proficiencyLevel ∧ t.proficiencyLevel ≤ 10 ∧
          0 ≤ t.yearsOfExperience ∧
          0 ≤ t.credibilityScore ∧ t.credibilityScore ≤ 100 := by
      intro t ht
      rcases List.mem_map.mp ht with ⟨s, hs, rfl⟩
      have hv := (huser u hmemu).2 s hs
      have htot := totalScore_in_range db now userId s.skill ⟨hsub, hend, huser⟩
      exact ⟨hv.1, hv.2.1, hv.2.2.1, htot.1, htot.2⟩
    refine ⟨hsub, hend, ?_⟩
    intro v hv
    rcases List.mem_map.mp hv with ⟨a, ha, rfl⟩
    by_cases hid : (a.id == userId) = true
    · rw [if_pos hid]
      refine ⟨updateCredibilityScore_in_range _
        (fun s hs => ⟨(hskills s hs).1, (hskills s hs).2.2⟩), ?_⟩
      intro s hs
      rw [updateCredibilityScore_skills] at hs
      exact hskills s hs
    · rw [if_neg hid]
      exact huser a ha

lemma updateAll_submissions (db : DB) (now : ℚ) (userId : Nat) :
    (updateAllSkillScores db now userId).submissions = db.submissions := by
  unfold updateAllSkillScores
  split <;> rfl

lemma updateAll_endorsements (db : DB) (now : ℚ) (userId : Nat) :
    (updateAllSkillScores db now userId).endorsements = db.endorsements := by
  unfold updateAllSkillScores
  split <;> rfl

lemma challengeScore_ext (db dbx : DB) (now : ℚ) (userId skillId : Nat)
    (h : dbx.submissions = db.submissions) :
    calculateChallengeScore dbx now userId skillId =
      calculateChallengeScore db now userId skillId := by
  unfold calculateChallengeScore passedVerifiedSubmissions
  rw [h]

lemma endorsementScore_ext (db dbx : DB) (userId skillId : Nat)
    (h : dbx.endorsements = db.endorsements)
    (hcred : ∀ e ∈ validEndorsements db userId skillId,
      endorserCredibility dbx e = endorserCredibility db e) :
    calculateEndorsementScore dbx userId skillId =
      calculateEndorsementScore db userId skillId := by
  have hv : validEndorsements dbx userId skillId =
      validEndorsements db userId skillId := by
    unfold validEndorsements
    rw [h]
  unfold calculateEndorsementScore
  rw [hv]
  dsimp only
  rw [List.map_congr_left
    (fun e he => by rw [hcred e he] :
      ∀ e ∈ validEndorsements db userId skillId,
        endorserCredibility dbx e * e.weight = endorserCredibility db e * e.weight)]

lemma endorserCredibility_ext (db dbx : DB) (e : Endorsement)
    (h : getUser dbx e.endorser = getUser db e.endorser) :
    endorserCredibility dbx e = endorserCredibility db e := by
  unfold endorserCredibility
  rw [h]

lemma proficiencyScore_eq_of (db : DB) (userId skillId : Nat) (u : User)
    (hu : getUser db userId = some u) :
    calculateProficiencyScore db userId skillId =
      match findUserSkill u skillId with
      | none => 0
      | some us =>
        min (25 + us.proficiencyLevel / 10 * 50 +
          min us.yearsOfExperience 10 / 10 * 25) 100 := by
  unfold calculateProficiencyScore
  rw [hu]

lemma timeDecay_eq_of (db : DB) (now : ℚ) (userId skillId : Nat) (u : User)
    (hu : getUser db userId = some u) :
    calculateTimeDecay db now userId skillId =
      match findUserSkill u skillId with
      | none => 1
      | some us => decayOfDays ((now - us.lastUpdated) / msPerDay) := by
  unfold calculateTimeDecay
  rw [hu]

lemma findUserSkill_recomputed (dbr : DB) (nowr : ℚ) (uidr : Nat)
    (u : User) (skillId : Nat) :
    (List.map (recomputedSkill dbr nowr uidr) u.skills).find?
        (fun s => s.skill == skillId)
      = (findUserSkill u skillId).map (recomputedSkill dbr nowr uidr) := by
  rw [List.find?_map]
  rfl

/-! ### Theorems -/

/-- C1: with all stored fields in their schema ranges, every score the
core returns — challenge, endorsement, proficiency, per-skill total and
overall — lies in [0,100], and the store persisted by the orchestrator
`updateAllSkillScores` again satisfies all the range invariants
(in particular every persisted per-skill and overall score is in
[0,100]). -/
theorem C1_scores_in_range (db : DB) (now : ℚ) (userId skillId : Nat)
    (h : ValidDB db) :
    (0 ≤ calculateChallengeScore db now userId skillId ∧
      calculateChallengeScore db now userId skillId ≤ 100) ∧
    (0 ≤ calculateEndorsementScore db userId skillId ∧
      calculateEndorsementScore db userId skillId ≤ 100) ∧
    (0 ≤ calculateProficiencyScore db userId skillId ∧
      calculateProficiencyScore db userId skillId ≤ 100) ∧
    (0 ≤ (calculateSkillCredibility db now userId skillId).totalScore ∧
      (calculateSkillCredibility db now userId skillId).totalScore ≤ 100) ∧
    (0 ≤ calculateOverallCredibility db userId ∧
      calculateOverallCredibility db userId ≤ 100) ∧
    ValidDB (updateAllSkillScores db now userId) := by
  obtain ⟨hsub, hend, huser⟩ := h
  refine ⟨⟨challengeScore_nonneg db now userId skillId (fun s hs => (hsub s hs).1),
      challengeScore_le_100 db now userId skillId⟩,
    ⟨endorsementScore_nonneg db userId skillId (fun e he => (hend e he).1)
        (fun u hu => (huser u hu).1),
      endorsementScore_le_100 db userId skillId⟩,
    ⟨proficiencyScore_nonneg db userId skillId
        (fun u hu s hs => ⟨by linarith [((huser u hu).2 s hs).1],
          ((huser u hu).2 s hs).2.2.1⟩),
      proficiencyScore_le_100 db userId skillId⟩,
    totalScore_in_range db now userId skillId ⟨hsub, hend, huser⟩,
    overall_in_range db userId ⟨hsub, hend, huser⟩,
    validDB_preserved db now userId ⟨hsub, hend, huser⟩⟩

/-- C1 witness: the range facts instantiated on the concrete store
`c2Db`, whose fields satisfy the schema ranges. -/
theorem C1_scores_in_range_witness :
    (0 ≤ calculateChallengeScore c2Db 0 0 1 ∧
      calculateChallengeScore c2Db 0 0 1 ≤ 100) ∧
    (0 ≤ calculateEndorsementScore c2Db 0 1 ∧
      calculateEndorsementScore c2Db 0 1 ≤ 100) ∧
    (0 ≤ calculateProficiencyScore c2Db 0 1 ∧
      calculateProficiencyScore c2Db 0 1 ≤ 100) ∧
    (0 ≤ (calculateSkillCredibility c2Db 0 0 1).totalScore ∧
      (calculateSkillCredibility c2Db 0 0 1).totalScore ≤ 100) ∧
    (0 ≤ calculateOverallCredibility c2Db 0 ∧
      calculateOverallCredibility c2Db 0 ≤ 100) ∧
    ValidDB (updateAllSkillScores c2Db 0 0) :=
  C1_scores_in_range c2Db 0 0 1 (by
    refine ⟨?_, ?_, ?_⟩
    · intro s hs
      simp [c2Db] at hs
    · intro e he
      simp [c2Db] at he
    · intro x hx
      simp only [c2Db, List.mem_singleton] at hx
      subst hx
      refine ⟨by norm_num [c2User], ?_⟩
      intro s hs
      simp only [c2User, List.mem_cons, List.not_mem_nil, or_false] at hs
      rcases hs with hs | hs <;> (subst hs; norm_num))

/-- C3 counterexample: on `c3Db` (one skill, `lastUpdated` 400 days before
the fixed clock `c3Now`, no other evidence) the first
`updateAllSkillScores` call persists overall score 8 (proficiency 57.5,
weighted 14.375, decay 42/73), but the second call — with no intervening
evidence change and the same clock — persists 14, because the first call
reset `lastUpdated` and thereby the decay factor to 1.  The runs are not
idempotent. -/
theorem C3_counterexample :
    (getUser (updateAllSkillScores c3Db c3Now 0) 0).map (fun v => v.credibilityScore)
        = some 8 ∧
    (getUser (updateAllSkillScores (updateAllSkillScores c3Db c3Now 0) c3Now 0) 0).map
        (fun v => v.credibilityScore) = some 14 := by
  constructor <;>
  · simp only [updateAllSkillScores, getUser, c3Db, c3User, c3Now,
      updateCredibilityScore, updateCredibilityScoreWeight, recomputedSkill,
      calculateSkillCredibility, calculateChallengeScore, passedVerifiedSubmissions,
      calculateEndorsementScore, validEndorsements, calculateProficiencyScore,
      calculateTimeDecay, findUserSkill, decayOfDays, msPerDay, jsRound,
      List.filter_nil, List.find?, List.map, List.sum_cons, List.sum_nil,
      List.length_cons, List.length_nil, Option.map_some]
    norm_num

/-- C3 amended: if at the fixed clock every owned skill was updated less
than 90 days ago (so the first call already runs at decay 1) and no valid
endorsement of the person was authored by the person themself, then
running `updateAllSkillScores` twice with unchanged evidence leaves the
per-skill credibility scores and the overall score identical after each
call.  (Without the freshness hypothesis the claim fails — the first
call resets `lastUpdated` and thereby the decay factor, see the
counterexample; a self-endorsement would likewise feed the first call's
overall score back into the second.) -/
theorem C3_amended_idempotent_when_fresh (db : DB) (now : ℚ) (userId : Nat)
    (u : User)
    (hu : getUser db userId = some u)
    (hfresh : ∀ s ∈ u.skills, (now - s.lastUpdated) / msPerDay < 90)
    (hself : ∀ e ∈ db.endorsements, ¬(e.endorser = userId ∧ e.recipient = userId)) :
    ∃ u1 u2,
      getUser (updateAllSkillScores db now userId) userId = some u1 ∧
      getUser (updateAllSkillScores (updateAllSkillScores db now userId) now userId)
          userId = some u2 ∧
      u2.skills.map (fun s => s.credibilityScore) =
        u1.skills.map (fun s => s.credibilityScore) ∧
      u2.credibilityScore = u1.credibilityScore := by
  have huid : u.id = userId := by simpa using List.find?_some hu
  set w : User := { u with skills := u.skills.map (recomputedSkill db now userId) }
    with hw
  set u1 : User := updateCredibilityScore w with hu1
  have hu1id : u1.id = userId := by
    rw [hu1, updateCredibilityScore_id]
    exact huid
  set db1 : DB := { db with
    users := db.users.map (fun v => if v.id == userId then u1 else v) } with hdb1
  have hstep1 : updateAllSkillScores db now userId = db1 := by
    unfold updateAllSkillScores
    rw [hu]
  have hgot1 : getUser db1 userId = some u1 := find?_map_update hu1id hu
  have hu1skills : u1.skills = u.skills.map (recomputedSkill db now userId) := by
    rw [hu1, updateCredibilityScore_skills]
  have hch : ∀ sid, calculateChallengeScore db1 now userId sid =
      calculateChallengeScore db now userId sid :=
    fun sid => challengeScore_ext db db1 now userId sid rfl
  have hen : ∀ sid, calculateEndorsementScore db1 userId sid =
      calculateEndorsementScore db userId sid := by
    intro sid
    refine endorsementScore_ext db db1 userId sid rfl ?_
    intro e he
    have hmem := List.mem_filter.mp he
    have hcond := hmem.2
    simp only [Bool.and_eq_true, beq_iff_eq] at hcond
    have hnedors : e.endorser ≠ userId := fun hx => hself e hmem.1 ⟨hx, hcond.1.1⟩
    exact endorserCredibility_ext db db1 e (find?_map_update_ne hu1id hnedors)
  have hfus : ∀ sid, findUserSkill u1 sid =
      (findUserSkill u sid).map (recomputedSkill db now userId) := by
    intro sid
    unfold findUserSkill
    rw [hu1skills]
    exact findUserSkill_recomputed db now userId u sid
  have hpr : ∀ sid, calculateProficiencyScore db1 userId sid =
      calculateProficiencyScore db userId sid := by
    intro sid
    rw [proficiencyScore_eq_of db1 userId sid u1 hgot1,
      proficiencyScore_eq_of db userId sid u hu, hfus sid]
    cases findUserSkill u sid with
    | none => rfl
    | some s => rfl
  have hdecay1 : ∀ sid, calculateTimeDecay db1 now userId sid = 1 := by
    intro sid
    rw [timeDecay_eq_of db1 now userId sid u1 hgot1, hfus sid]
    cases findUserSkill u sid with
    | none => rfl
    | some s =>
      show decayOfDays ((now - now) / msPerDay) = 1
      unfold decayOfDays
      rw [if_pos (by norm_num [msPerDay])]
  have hdecay0 : ∀ sid, calculateTimeDecay db now userId sid = 1 := by
    intro sid
    rw [timeDecay_eq_of db now userId sid u hu]
    cases hfu : findUserSkill u sid with
    | none => rfl
    | some s =>
      have hmem : s ∈ u.skills := List.mem_of_find?_eq_some hfu
      show decayOfDays ((now - s.lastUpdated) / msPerDay) = 1
      unfold decayOfDays
      rw [if_pos (hfresh s hmem)]
  have hR : ∀ sid, calculateSkillCredibility db1 now userId sid =
      calculateSkillCredibility db now userId sid := by
    intro sid
    unfold calculateSkillCredibility
    rw [hch sid, hen sid, hpr sid, hdecay1 sid, hdecay0 sid]
  have hfix : ∀ t ∈ u1.skills, recomputedSkill db1 now userId t = t := by
    intro t ht
    rw [hu1skills] at ht
    rcases List.mem_map.mp ht with ⟨s, _, rfl⟩
    show recomputedSkill db1 now userId (recomputedSkill db now userId s) = _
    unfold recomputedSkill
    rw [hR]
  have hu2skills : u1.skills.map (recomputedSkill db1 now userId) = u1.skills := by
    rw [List.map_congr_left hfix]
    exact List.map_id' u1.skills
  have hstep2 : updateAllSkillScores db1 now userId =
      { db1 with users :=
          db1.users.map (fun v => if v.id == userId then updateCredibilityScore u1 else v) } := by
    unfold updateAllSkillScores
    rw [hgot1]
    dsimp only
    rw [hu2skills]
  have hgot2 : getUser (updateAllSkillScores db1 now userId) userId =
      some (updateCredibilityScore u1) := by
    rw [hstep2]
    exact find?_map_update (by rw [updateCredibilityScore_id]; exact hu1id) hgot1
  refine ⟨u1, updateCredibilityScore u1, by rw [hstep1]; exact hgot1,
    by rw [hstep1]; exact hgot2, ?_, ?_⟩
  · rw [updateCredibilityScore_skills]
  · rw [hu1, updateCredibilityScore_score (updateCredibilityScore w),
      updateCredibilityScore_skills, updateCredibilityScore_score w]

/-- C3 amended witness: on `c2Db` every skill has `lastUpdated` at the
clock instant and there are no endorsements, so the hypotheses hold. -/
theorem C3_amended_idempotent_when_fresh_witness :
    ∃ u1 u2,
      getUser (updateAllSkillScores c2Db 0 0) 0 = some u1 ∧
      getUser (updateAllSkillScores (updateAllSkillScores c2Db 0 0) 0 0) 0 = some u2 ∧
      u2.skills.map (fun s => s.credibilityScore) =
        u1.skills.map (fun s => s.credibilityScore) ∧
      u2.credibilityScore = u1.credibilityScore :=
  C3_amended_idempotent_when_fresh c2Db 0 0 c2User rfl
    (by
      intro s hs
      simp only [c2User, List.mem_cons, List.not_mem_nil, or_false] at hs
      rcases hs with hs | hs <;> (subst hs; norm_num [msPerDay]))
    (by
      intro e he
      simp [c2Db] at he)

/-- C5: the decay factor is 1 for `daysSinceUpdate < 90`, equals
`1 - (daysSinceUpdate - 90)/(365*2)` clamped to `[0.5, 1]` for
`daysSinceUpdate ≥ 90`, is never below `0.5`, and is non-increasing. -/
theorem C5_decay_formula_monotone (t u : ℚ) (ht : 0 ≤ t) (htu : t ≤ u) :
    (t < 90 → decayOfDays t = 1) ∧
    (90 ≤ t → decayOfDays t = max (1/2) (min (1 - (t - 90) / (365 * 2)) 1)) ∧
    1/2 ≤ decayOfDays t ∧
    decayOfDays u ≤ decayOfDays t := by
  refine ⟨fun h => by rw [decayOfDays, if_pos h],
          fun h => by rw [decayOfDays, if_neg (not_lt.mpr h)], ?_, ?_⟩
  · unfold decayOfDays
    split_ifs with h
    · norm_num
    · exact le_max_left _ _
  · unfold decayOfDays
    split_ifs with h1 h2 h2
    · exact le_refl 1
    · exact absurd (lt_of_le_of_lt htu h1) (not_lt.mpr (not_lt.mp h2))
    · refine max_le (by norm_num) (le_trans (min_le_right _ _) (le_refl 1))
    · exact max_le_max (le_refl _) (min_le_min (by linarith) (le_refl _))

/-- C5 witness: the decay facts instantiated at `t = 0`, `u = 400`. -/
theorem C5_decay_formula_monotone_witness :
    ((0 : ℚ) < 90 → decayOfDays 0 = 1) ∧
    (90 ≤ (0 : ℚ) → decayOfDays 0 = max (1/2) (min (1 - (0 - 90) / (365 * 2)) 1)) ∧
    1/2 ≤ decayOfDays 0 ∧
    decayOfDays 400 ≤ decayOfDays 0 :=
  C5_decay_formula_monotone 0 400 (by norm_num) (by norm_num)

/-- C2 counterexample: on the `c2Db` store the orchestrator persists the
overall score 14 (weighted by `proficiencyLevel * yearsOfExperience + 1`
via `User.updateCredibilityScore`), while the claim's formula with
`weight = proficiencyLevel * (yearsOfExperience + 1)` — evaluated on the
same persisted skills by `calculateOverallCredibility` — gives 16. -/
theorem C2_counterexample :
    (getUser (updateAllSkillScores c2Db 0 0) 0).map (fun u => u.credibilityScore)
        = some 14 ∧
    calculateOverallCredibility (updateAllSkillScores c2Db 0 0) 0 = 16 := by
  constructor <;>
  · simp only [updateAllSkillScores, getUser, c2Db, c2User, updateCredibilityScore,
      updateCredibilityScoreWeight, recomputedSkill, calculateSkillCredibility,
      calculateChallengeScore, passedVerifiedSubmissions, calculateEndorsementScore,
      validEndorsements, calculateProficiencyScore, calculateTimeDecay, findUserSkill,
      decayOfDays, msPerDay, jsRound, calculateOverallCredibility,
      overallCredibilityWeight, List.filter_nil, List.find?, List.map, List.sum_cons,
      List.sum_nil, List.length_cons, List.length_nil, Option.map_some]
    norm_num [overallCredibilityWeight, updateCredibilityScoreWeight]

/-- C2 amended: after `updateAllSkillScores`, the persisted overall score
equals `round(sum(totalScore_s * w_s) / sum(w_s))` over the freshly
computed per-skill totals with `w = proficiencyLevel * yearsOfExperience + 1`
(the weight `User.updateCredibilityScore` actually uses), and equals 0
when the person owns zero skills. -/
theorem C2_amended_persisted_overall (db : DB) (now : ℚ) (userId : Nat) (u : User)
    (hu : getUser db userId = some u) :
    ∃ v, getUser (updateAllSkillScores db now userId) userId = some v ∧
      v.credibilityScore =
        (if u.skills.length = 0 then 0 else
          jsRound ((u.skills.map (fun s =>
              (calculateSkillCredibility db now userId s.skill).totalScore *
                (s.proficiencyLevel * s.yearsOfExperience + 1))).sum /
            (u.skills.map
              (fun s => s.proficiencyLevel * s.yearsOfExperience + 1)).sum)) := by
  have huid : u.id = userId := by simpa using List.find?_some hu
  refine ⟨updateCredibilityScore
    { u with skills := u.skills.map (recomputedSkill db now userId) }, ?_, ?_⟩
  · unfold updateAllSkillScores
    simp only [hu]
    exact find?_map_update (by rw [updateCredibilityScore_id]; exact huid) hu
  · rw [updateCredibilityScore_score]
    simp only [List.length_map, List.map_map]
    rfl

/-- C2 amended witness: instantiated on the concrete `c2Db` store. -/
theorem C2_amended_persisted_overall_witness :
    ∃ v, getUser (updateAllSkillScores c2Db 0 0) 0 = some v ∧
      v.credibilityScore =
        (if c2User.skills.length = 0 then 0 else
          jsRound ((c2User.skills.map (fun s =>
              (calculateSkillCredibility c2Db 0 0 s.skill).totalScore *
                (s.proficiencyLevel * s.yearsOfExperience + 1))).sum /
            (c2User.skills.map
              (fun s => s.proficiencyLevel * s.yearsOfExperience + 1)).sum)) :=
  C2_amended_persisted_overall c2Db 0 0 c2User rfl

/-- C8 counterexample: on identical per-skill data, the exposed
`calculateOverallCredibility` yields 91 while the persisted path
`User.updateCredibilityScore` yields 50 — the two implementations of the
overall score are not equivalent. -/
theorem C8_counterexample :
    calculateOverallCredibility c8Db 0 = 91 ∧
    (updateCredibilityScore c8User).credibilityScore = 50 := by
  constructor <;>
  · simp only [calculateOverallCredibility, getUser, c8Db, c8User,
      overallCredibilityWeight, updateCredibilityScore, updateCredibilityScoreWeight,
      jsRound, List.find?, List.map, List.sum_cons, List.sum_nil, List.length_cons,
      List.length_nil]
    norm_num [overallCredibilityWeight, updateCredibilityScoreWeight]

/-- C8 amended: the two overall-score implementations agree on every user
all of whose skills have `proficiencyLevel = 1` (then both weights reduce
to `yearsOfExperience + 1`), and on users with no skills (both give 0);
they differ in general, as the counterexample shows. -/
theorem C8_amended_agreement (db : DB) (userId : Nat) (u : User)
    (hu : getUser db userId = some u)
    (hp : ∀ s ∈ u.skills, s.proficiencyLevel = 1) :
    calculateOverallCredibility db userId =
      (updateCredibilityScore u).credibilityScore := by
  unfold calculateOverallCredibility
  simp only [hu]
  rw [updateCredibilityScore_score]
  by_cases h0 : u.skills.length = 0
  · simp [h0]
  · rw [if_neg h0, if_neg h0]
    have hw : ∀ s ∈ u.skills,
        overallCredibilityWeight s = updateCredibilityScoreWeight s := by
      intro s hs
      unfold overallCredibilityWeight updateCredibilityScoreWeight
      rw [hp s hs]
      ring
    rw [List.map_congr_left hw,
      List.map_congr_left (fun s hs => by rw [hw s hs] :
        ∀ s ∈ u.skills, s.credibilityScore * overallCredibilityWeight s =
          s.credibilityScore * updateCredibilityScoreWeight s)]

/-- C8 amended witness: on `c8UnitDb` (single skill, proficiency 1) the
two implementations coincide. -/
theorem C8_amended_agreement_witness :
    calculateOverallCredibility c8UnitDb 0 =
      (updateCredibilityScore c8UnitUser).credibilityScore :=
  C8_amended_agreement c8UnitDb 0 c8UnitUser rfl (by
    intro s hs
    simp only [c8UnitUser, List.mem_singleton] at hs
    rw [hs])

/-- C4 counterexample: on the Scenario A store the challenge score is
`min(100, 100*((40+27)*1.5+20*1)/150) = 241/3 ≈ 80.33`; it is strictly
below the cap, so the claim's assertion that the result is approximately
100 and clamped is false at this input. -/
theorem C4_counterexample :
    calculateChallengeScore scenarioADb 0 0 1 = 241/3 ∧ (241/3 : ℚ) < 95 := by
  constructor
  · simp [calculateChallengeScore, passedVerifiedSubmissions, scenarioADb,
      scenarioASubmission, submissionComponentScore, difficultyMultiplier, msPerDay]
    norm_num
  · norm_num

/-- C4 amended: when the person's verified passed submissions consist of
exactly one submission for the skill, of medium difficulty, score 90,
submitted at the clock instant, `calculateChallengeScore` returns
`min(100, 100*((40+27)*1.5+20*1)/150) = 241/3 ≈ 80.33`; the value is
below 100, so the cap does not bind. -/
theorem C4_amended_scenarioA (db : DB) (now : ℚ) (userId skillId : Nat)
    (s : Submission)
    (hsubs : passedVerifiedSubmissions db userId = [s])
    (hskill : s.challenge.skill = skillId)
    (hdiff : s.challenge.difficulty = "medium")
    (hscore : s.score = 90)
    (htime : s.submittedAt = now) :
    calculateChallengeScore db now userId skillId = 241/3 := by
  unfold calculateChallengeScore
  rw [hsubs]
  simp only [List.length_cons, List.length_nil]
  norm_num
  rw [List.filter_cons_of_pos (by simp [hskill])]
  simp [submissionComponentScore, hdiff, hscore, htime, difficultyMultiplier, msPerDay]
  norm_num

/-- C4 amended witness: the hypotheses hold at the Scenario A store. -/
theorem C4_amended_scenarioA_witness :
    calculateChallengeScore scenarioADb 0 0 1 = 241/3 :=
  C4_amended_scenarioA scenarioADb 0 0 1 scenarioASubmission rfl rfl rfl rfl rfl

/-- C6: zero evidence gives a zero score — no verified passed submission
for the skill gives challenge score 0, no valid endorsement for the
(recipient, skill) pair gives endorsement score 0, and a missing skill
record gives proficiency score 0. -/
theorem C6_zero_evidence_zero_score (db : DB) (now : ℚ) (userId skillId : Nat) :
    ((passedVerifiedSubmissions db userId).filter
        (fun s => s.challenge.skill == skillId) = [] →
      calculateChallengeScore db now userId skillId = 0) ∧
    (validEndorsements db userId skillId = [] →
      calculateEndorsementScore db userId skillId = 0) ∧
    ((∀ u, getUser db userId = some u → findUserSkill u skillId = none) →
      calculateProficiencyScore db userId skillId = 0) := by
  refine ⟨fun h => ?_, fun h => ?_, fun h => ?_⟩
  · unfold calculateChallengeScore
    by_cases hl : (passedVerifiedSubmissions db userId).length = 0
    · simp [hl]
    · simp [hl, h]
  · unfold calculateEndorsementScore
    rw [h]
    simp
  · unfold calculateProficiencyScore
    cases hu : getUser db userId with
    | none => simp
    | some u => simp [h u hu]

/-- C6 witness: all three zero-evidence scores on the one-user store. -/
theorem C6_zero_evidence_zero_score_witness :
    calculateChallengeScore soloUserDb 0 0 0 = 0 ∧
    calculateEndorsementScore soloUserDb 0 0 = 0 ∧
    calculateProficiencyScore soloUserDb 0 0 = 0 :=
  ⟨(C6_zero_evidence_zero_score soloUserDb 0 0 0).1 rfl,
   (C6_zero_evidence_zero_score soloUserDb 0 0 0).2.1 rfl,
   (C6_zero_evidence_zero_score soloUserDb 0 0 0).2.2 (by
      intro u hu
      simp [getUser, soloUserDb, soloUser] at hu
      subst hu
      rfl)⟩

/-- C7: with level and endorser credibility (and weight) held constant
across the endorsement set, appending a further valid endorsement for the
(recipient, skill) pair never decreases `calculateEndorsementScore`. -/
theorem C7_endorsement_count_monotone (db : DB) (userId skillId : Nat)
    (e : Endorsement) (lv : String) (c w : ℚ)
    (hc : 0 ≤ c) (hw : 0 ≤ w)
    (hall : ∀ x ∈ validEndorsements db userId skillId,
      x.level = lv ∧ endorserCredibility db x = c ∧ x.weight = w)
    (her : e.recipient = userId) (hesk : e.skill = skillId)
    (hev : e.isValid = true) (helv : e.level = lv)
    (hec : endorserCredibility db e = c) (hew : e.weight = w) :
    calculateEndorsementScore db userId skillId ≤
      calculateEndorsementScore
        { db with endorsements := db.endorsements ++ [e] } userId skillId := by
  set db2 : DB := { db with endorsements := db.endorsements ++ [e] } with hdb2
  have hval : validEndorsements db2 userId skillId =
      validEndorsements db userId skillId ++ [e] := by
    unfold validEndorsements
    show (db.endorsements ++ [e]).filter _ = _
    rw [List.filter_append]
    congr 1
    simp [her, hesk, hev]
  have hall2 : ∀ x ∈ validEndorsements db2 userId skillId,
      x.level = lv ∧ endorserCredibility db2 x = c ∧ x.weight = w := by
    rw [hval]
    intro x hx
    rcases List.mem_append.mp hx with h | h
    · exact hall x h
    · rw [List.mem_singleton.mp h]
      exact ⟨helv, hec, hew⟩
  have hne2 : validEndorsements db2 userId skillId ≠ [] := by
    rw [hval]
    simp
  have hLv : (1 : ℚ) ≤ levelValue lv := levelValue_one_le lv
  have hcw : (0 : ℚ) ≤ c * w := mul_nonneg hc hw
  by_cases hne : validEndorsements db userId skillId = []
  · have hold : calculateEndorsementScore db userId skillId = 0 := by
      unfold calculateEndorsementScore
      rw [hne]
      simp
    rw [hold, endorsementScore_uniform db2 userId skillId lv c w hall2 hne2]
    have hb : (0 : ℚ) ≤
        min (((validEndorsements db2 userId skillId).length : ℚ) * 2) 20 :=
      le_min (by positivity) (by norm_num)
    exact le_min (by linarith) (by norm_num)
  · rw [endorsementScore_uniform db userId skillId lv c w hall hne,
      endorsementScore_uniform db2 userId skillId lv c w hall2 hne2]
    refine min_le_min (add_le_add le_rfl (min_le_min ?_ le_rfl)) le_rfl
    rw [hval, List.length_append]
    push_cast
    linarith

/-- C7 witness: adding the concrete endorsement to the store holding
none can only raise the endorsement score. -/
theorem C7_endorsement_count_monotone_witness :
    calculateEndorsementScore c7Db 0 1 ≤
      calculateEndorsementScore
        { c7Db with endorsements := c7Db.endorsements ++ [c7Endorsement] } 0 1 :=
  C7_endorsement_count_monotone c7Db 0 1 c7Endorsement "expert" 80 (9/10)
    (by norm_num) (by norm_num)
    (by intro x hx; simp [validEndorsements, c7Db] at hx)
    rfl rfl rfl rfl rfl rfl

/-- C9: whenever the `score` path was modified, the submission pre-save
hook sets `isPassed` to `score ≥ 70`, whatever `passingScore` the
referenced challenge declares. -/
theorem C9_presave_fixed_threshold (s : Submission) (ps : ℚ) :
    (submissionPreSave
        { s with challenge := { s.challenge with passingScore := ps } } true).isPassed
      = decide (70 ≤ s.score) := by
  simp [submissionPreSave]

/-- C10: `calculateTimeDecay` returns 1 when the user record is missing,
and also when the user owns no record for the requested skill. -/
theorem C10_missing_record_decay_one (db : DB) (now : ℚ) (userId skillId : Nat) :
    (getUser db userId = none → calculateTimeDecay db now userId skillId = 1) ∧
    (∀ u, getUser db userId = some u → findUserSkill u skillId = none →
      calculateTimeDecay db now userId skillId = 1) := by
  constructor
  · intro h
    simp [calculateTimeDecay, h]
  · intro u h1 h2
    simp [calculateTimeDecay, h1, h2]

/-- C10 witness: an empty store, and a store whose only user owns no
skills, both decay with factor 1. -/
theorem C10_missing_record_decay_one_witness :
    calculateTimeDecay emptyDb 0 0 0 = 1 ∧ calculateTimeDecay soloUserDb 0 0 0 = 1 :=
  ⟨(C10_missing_record_decay_one emptyDb 0 0 0).1 rfl,
   (C10_missing_record_decay_one soloUserDb 0 0 0).2 soloUser rfl rfl⟩

end SkillLedger
